import Mathlib

/-!
Verification of the `staticbip` region tracker (`src/src/lib.rs`).

`StaticBip<T, CAP>` keeps three half-open index ranges `a`, `b`, `reserve`
over a fixed backing store of `CAP` elements.  We embed the structure with
the backing store as a `List α` whose length plays the role of `CAP`, and
each method as a pure state transformer.  Rust `usize` subtraction is
embedded as truncated `Nat` subtraction; wherever a claim depends on
underflow or out-of-bounds indexing we state the bounds explicitly instead
of relying on the truncation.
-/

/-- Half-open index range `[start, stop)`, embedding Rust's
`core::ops::Range<usize>`; `stop` embeds the field `end` (a Lean keyword). -/
structure BRange where
  start : Nat
  stop : Nat
deriving DecidableEq, Repr

/-- The empty range `0..0`. -/
def BRange.zero : BRange := ⟨0, 0⟩

/-- Length of a range, `end - start` (Rust `usize` subtraction, truncated). -/
def BRange.len (r : BRange) : Nat := r.stop - r.start

/-- Rust `Range::is_empty`: `!(start < end)`. -/
def BRange.is_empty (r : BRange) : Bool := !(r.start < r.stop)

namespace Bip

/-- `StaticBip<T, CAP>`: the A region, B region, Reserve region and the
backing store (whose length is the capacity `CAP`). -/
structure StaticBip (α : Type) where
  a : BRange
  b : BRange
  reserve : BRange
  buffer : List α
deriving DecidableEq

/-- `StaticBip::new(buffer)`: all three ranges start out empty. -/
def new (buffer : List α) : StaticBip α :=
  { a := BRange.zero, b := BRange.zero, reserve := BRange.zero, buffer := buffer }

/-- `StaticBip::capacity`: length of the backing store. -/
def capacity (s : StaticBip α) : Nat := s.buffer.length

/-- `StaticBip::committed`: `a.end - a.start + b.end - b.start`. -/
def committed (s : StaticBip α) : Nat :=
  s.a.stop - s.a.start + s.b.stop - s.b.start

/-- `StaticBip::reserved`: `reserve.end - reserve.start`. -/
def reserved (s : StaticBip α) : Nat := s.reserve.stop - s.reserve.start

/-- `StaticBip::is_empty`: nothing reserved and nothing committed. -/
def is_empty (s : StaticBip α) : Bool :=
  reserved s = 0 && committed s = 0

/-- `StaticBip::clear`: resets all three ranges, leaving the store alone. -/
def clear (s : StaticBip α) : StaticBip α :=
  { s with a := BRange.zero, b := BRange.zero, reserve := BRange.zero }

/-- `StaticBip::reserve`: chooses the placement of the write window and
records it in `reserve`.  The Rust method returns
`&mut self.buffer[self.reserve.clone()]`; the window is recovered from the
resulting state's `reserve` range. -/
def reserve (s : StaticBip α) (count : Nat) : StaticBip α :=
  let space_after_a := capacity s - s.a.stop
  let sf : Nat × Nat :=
    if s.b.stop > s.b.start then
      (s.b.stop, s.a.start - s.b.stop)
    else if space_after_a ≥ s.a.start then
      (s.a.stop, space_after_a)
    else
      (0, s.a.start)
  { s with reserve := ⟨sf.1, sf.1 + min sf.2 count⟩ }

/-- The window handed back by `reserve`, as a slice of the backing store. -/
def window (s : StaticBip α) : List α :=
  (s.buffer.drop s.reserve.start).take (s.reserve.stop - s.reserve.start)

/-- Writing a sequence of values through the mutable window returned by
`reserve`: the slots `reserve.start ..` are overwritten in place. -/
def write (s : StaticBip α) (vs : List α) : StaticBip α :=
  { s with buffer :=
      s.buffer.take s.reserve.start ++ vs
        ++ s.buffer.drop (s.reserve.start + vs.length) }

/-- `StaticBip::commit`. -/
def commit (s : StaticBip α) (len : Nat) : StaticBip α :=
  let s' :=
    if len ≠ 0 then
      let to_commit := min len (s.reserve.stop - s.reserve.start)
      if s.a.is_empty && s.b.is_empty then
        { s with a := ⟨s.reserve.start, s.reserve.start + to_commit⟩ }
      else if s.reserve.start = s.a.stop then
        { s with a := ⟨s.a.start, s.a.stop + to_commit⟩ }
      else
        { s with b := ⟨s.b.start, s.b.stop + to_commit⟩ }
    else s
  { s' with reserve := BRange.zero }

/-- `StaticBip::read`: the A region as a contiguous slice of the store. -/
def read (s : StaticBip α) : List α :=
  (s.buffer.drop s.a.start).take (s.a.stop - s.a.start)

/-- `StaticBip::decommit`. -/
def decommit (s : StaticBip α) (len : Nat) : StaticBip α :=
  if len ≥ s.a.stop - s.a.start then
    { s with a := s.b, b := BRange.zero }
  else
    { s with a := ⟨s.a.start + len, s.a.stop⟩ }

/-- `StaticBip::pop`: `a.next().or_else(|| b.next())`, then indexes the
store at the yielded position.  We return the yielded index (the Rust
method returns `&mut self.buffer[index]`) together with the new state. -/
def pop (s : StaticBip α) : Option Nat × StaticBip α :=
  if s.a.start < s.a.stop then
    (some s.a.start, { s with a := ⟨s.a.start + 1, s.a.stop⟩ })
  else if s.b.start < s.b.stop then
    (some s.b.start, { s with b := ⟨s.b.start + 1, s.b.stop⟩ })
  else
    (none, s)

/-- One public range-mutating call, for reachability arguments. -/
inductive Op where
  | reserve (count : Nat)
  | commit (len : Nat)
  | decommit (len : Nat)
  | pop
  | clear
deriving DecidableEq

/-- Effect of one call on the tracker state. -/
def step (s : StaticBip α) : Op → StaticBip α
  | .reserve c => reserve s c
  | .commit l => commit s l
  | .decommit l => decommit s l
  | .pop => (pop s).2
  | .clear => clear s

/-- Running a finite call sequence from a state. -/
def run (s : StaticBip α) (ops : List Op) : StaticBip α :=
  ops.foldl step s

/-- The §3 invariants of the spec: each range within `[0, CAP]`, A and B
disjoint, and B (when non-empty) entirely before A. -/
def Inv (s : StaticBip α) : Prop :=
  s.a.start ≤ s.a.stop ∧ s.a.stop ≤ capacity s ∧
  s.b.start ≤ s.b.stop ∧ s.b.stop ≤ capacity s ∧
  s.reserve.start ≤ s.reserve.stop ∧ s.reserve.stop ≤ capacity s ∧
  (s.b.start < s.b.stop → s.b.stop ≤ s.a.start)

instance (s : StaticBip α) : Decidable (Inv s) := by
  unfold Inv; infer_instance

/-- The placement rule of `reserve` as worded by the spec (§4.1), evaluated
in its strict order: (1) B non-empty → window starts at `B.end` with free
space `A.start - B.end`; (2) else if `CAP - A.end ≥ A.start` → window
starts at `A.end` with free space `CAP - A.end`; (3) else window starts at
`0` with free space `A.start`; window length is `min(count, free)`. -/
def reserveSpec (s : StaticBip α) (count : Nat) : StaticBip α :=
  if s.b.start < s.b.stop then
    { s with reserve := ⟨s.b.stop, s.b.stop + min count (s.a.start - s.b.stop)⟩ }
  else if capacity s - s.a.stop ≥ s.a.start then
    { s with reserve := ⟨s.a.stop, s.a.stop + min count (capacity s - s.a.stop)⟩ }
  else
    { s with reserve := ⟨0, min count s.a.start⟩ }

/-- `commit` as worded by the spec (§4.1): `len = 0` only clears Reserve;
otherwise, with `n = min(len, len(Reserve))`, the reservation becomes the
new A when both A and B are empty, extends A when it began exactly at
`A.end`, and otherwise grows B; Reserve is cleared in every case. -/
def commitSpec (s : StaticBip α) (len : Nat) : StaticBip α :=
  if len = 0 then
    { s with reserve := BRange.zero }
  else if s.a.len = 0 ∧ s.b.len = 0 then
    { s with a := ⟨s.reserve.start, s.reserve.start + min len s.reserve.len⟩,
             reserve := BRange.zero }
  else if s.reserve.start = s.a.stop then
    { s with a := ⟨s.a.start, s.a.stop + min len s.reserve.len⟩,
             reserve := BRange.zero }
  else
    { s with b := ⟨s.b.start, s.b.stop + min len s.reserve.len⟩,
             reserve := BRange.zero }

/-- `decommit` as worded by the spec (§4.1): when `len ≥ len(A)`, A is
replaced by the current B and B is cleared (one rotation, excess ignored);
otherwise A only shrinks from the front by `len`. -/
def decommitSpec (s : StaticBip α) (len : Nat) : StaticBip α :=
  if s.a.len ≤ len then
    { s with a := s.b, b := BRange.zero }
  else
    { s with a := ⟨s.a.start + len, s.a.stop⟩ }

/-- `pop` as worded by the spec (§4.1): take the slot at `A.start` and
advance `A.start` when A is non-empty, else the slot at `B.start` advancing
`B.start` when B is non-empty, else nothing; no rotation ever happens. -/
def popSpec (s : StaticBip α) : Option Nat × StaticBip α :=
  if 0 < s.a.len then
    (some s.a.start, { s with a := ⟨s.a.start + 1, s.a.stop⟩ })
  else if 0 < s.b.len then
    (some s.b.start, { s with b := ⟨s.b.start + 1, s.b.stop⟩ })
  else
    (none, s)

/-- A call sequence (capacity 4) after which the commit of a fresh
reservation at index 0 grows a stale non-zero-based empty B range `3..3`
into `3..5`, which overlaps A `= 2..4` and sticks out past the store. -/
def opsBug : List Op :=
  [.reserve 4, .commit 4, .decommit 3, .reserve 4, .commit 3,
   .pop, .pop, .pop, .pop,
   .reserve 4, .commit 4, .decommit 2, .reserve 2, .commit 2]

/-- Continuation of `opsBug`: rotating the oversized B into A and draining
it makes `pop` yield index `4`, one past the end of the 4-slot store. -/
def opsOob : List Op := opsBug ++ [.decommit 2, .pop]

/-- Continuation of `opsBug` ending in a rotation, leaving `a = 3..5` with
`a.stop` beyond the capacity; `reserve` then underflows `CAP - a.end`. -/
def opsOver : List Op := opsBug ++ [.decommit 2]

/-- The tracker state of claim C10: capacity 4, `[1,2,3,4]` committed,
two elements decommitted, `[5,6]` committed into B, then A drained to
empty by two `pop` calls while B still holds `[5,6]`. -/
def sPopDrained : StaticBip Nat :=
  let s1 := commit (write (reserve (new [0, 0, 0, 0]) 4) [1, 2, 3, 4]) 4
  let s2 := decommit s1 2
  let s3 := commit (write (reserve s2 2) [5, 6]) 2
  (pop (pop s3).2).2

/-- A fresh 4-slot tracker over `Nat`, used for concrete runs. -/
def fresh4 : StaticBip Nat := new (List.replicate 4 0)

end Bip

namespace Bip

/-- C1: the §3 invariants do NOT hold after every finite sequence of
`reserve`/`commit`/`decommit`/`pop`/`clear` calls from a fresh tracker:
after `opsBug` (capacity 4) the state has `a = 2..4` and `b = 3..5`, so B
overlaps A, B does not lie before A, and `b.stop` exceeds the capacity.
Root cause: `pop` can leave B as a non-zero-based empty range `k..k`, and
`commit`'s `b.end += to_commit` branch then grows that stale range even
though the committed data was written at index 0. -/
theorem C1_invariants_violated :
    (run fresh4 opsBug).a = ⟨2, 4⟩ ∧ (run fresh4 opsBug).b = ⟨3, 5⟩ ∧
      capacity (run fresh4 opsBug) = 4 ∧ ¬ Inv (run fresh4 opsBug) := by
  decide

/-- C7: the operations are not total on all reachable states: after
`opsOob` (capacity 4) the next `pop` yields the index 4, so the Rust code
evaluates `&mut self.buffer[4]` on a 4-element store and panics. -/
theorem C7_pop_index_out_of_bounds :
    (pop (run fresh4 opsOob)).1 = some 4 ∧ capacity (run fresh4 opsOob) ≤ 4 := by
  decide

/-- C8: `committed() + reserved() ≤ CAP` fails on a reachable state: after
`opsOver` (capacity 4) the state has `a = 3..5`, so `a.stop` exceeds the
capacity and the subtraction `CAP - a.end` inside `reserve` underflows
(panic in debug Rust, wrap-around in release); in the truncated-subtraction
embedding the subsequent `reserve 3` produces `committed + reserved = 5`. -/
theorem C8_committed_reserved_exceed_cap :
    (run fresh4 opsOver).a = ⟨3, 5⟩ ∧ capacity (run fresh4 opsOver) = 4 ∧
      committed (run fresh4 (opsOver ++ [.reserve 3]))
        + reserved (run fresh4 (opsOver ++ [.reserve 3])) = 5 := by
  decide

/-- C9 fails as stated: a reachable state (capacity 4, no invariant
violation involved) has B non-empty with `b.start = 1`: after committing
`2..4` into A and `0..2` into B, two `pop` calls drain A and a third
consumes B in place, leaving `b = 1..2`. -/
theorem C9_counterexample_b_start_one :
    (run fresh4
        [.reserve 4, .commit 4, .decommit 2, .reserve 2, .commit 2,
         .pop, .pop, .pop]).b = ⟨1, 2⟩ := by
  decide

/-- Any single non-`pop` call keeps `b.start` at 0. -/
theorem step_b_start_eq_zero (s : StaticBip α) (op : Op) (hop : op ≠ Op.pop)
    (h : s.b.start = 0) : (step s op).b.start = 0 := by
  cases op with
  | reserve c => simpa [step, reserve] using h
  | commit l =>
      simp only [step, commit]
      split_ifs <;> simpa using h
  | decommit l =>
      simp only [step, decommit]
      split_ifs <;> simp [BRange.zero, h]
  | pop => exact absurd rfl hop
  | clear => simp [step, clear, BRange.zero]

/-- C9 amended: in every state reachable from a fresh tracker by a
sequence of `reserve`, `commit`, `decommit` and `clear` calls — i.e. any
sequence without `pop` — `b.start` is 0, so whenever B is non-empty it
begins at the low end of the store; `pop`, however, consumes B in place
and may advance `b.start` past 0 once A is drained. -/
theorem C9_b_start_zero_without_pop (ops : List Op) (hops : Op.pop ∉ ops)
    (buf : List α) : (run (new buf) ops).b.start = 0 := by
  have key : ∀ (l : List Op) (s : StaticBip α), Op.pop ∉ l → s.b.start = 0 →
      (run s l).b.start = 0 := by
    intro l
    induction l with
    | nil => intro s _ h; exact h
    | cons op rest ih =>
        intro s hmem h
        have h1 : op ≠ Op.pop := fun he => hmem (he ▸ List.mem_cons_self op rest)
        have h2 : Op.pop ∉ rest := fun hm => hmem (List.mem_cons_of_mem op hm)
        exact ih (step s op) h2 (step_b_start_eq_zero s op h1 h)
  exact key ops (new buf) hops rfl

/-- C9 amended, witness: the pop-free sequence `[reserve 2, commit 2]` on a
fresh 2-slot tracker leaves `b.start = 0`. -/
theorem C9_b_start_zero_without_pop_witness :
    (run (new ([0, 0] : List Nat)) [Op.reserve 2, Op.commit 2]).b.start = 0 :=
  C9_b_start_zero_without_pop [Op.reserve 2, Op.commit 2] (by decide) [0, 0]

/-- C10: a reachable state with committed data but an empty `read`: in
`sPopDrained`, `pop` has drained A while B still holds `[5, 6]`, so
`committed = 2` yet `read` is empty; `decommit 0` then rotates B into A
(since `0 ≥ len(A)`), after which `read` returns `[5, 6]`. -/
theorem C10_read_empty_while_committed :
    committed sPopDrained = 2 ∧ read sPopDrained = [] ∧
      read (decommit sPopDrained 0) = [5, 6] := by
  decide

/-- C2: for `n ≤ CAP`, reserving `n` slots on a fresh tracker, writing `n`
values through the returned window, committing all `n` and reading back
yields exactly those values in order. -/
theorem C2_round_trip (buf vs : List α) (n : Nat) (hn : n ≤ buf.length)
    (hv : vs.length = n) :
    read (commit (write (reserve (new buf) n) vs) n) = vs := by
  subst hv
  have h1 : reserve (new buf) vs.length =
      { a := BRange.zero, b := BRange.zero, reserve := ⟨0, vs.length⟩,
        buffer := buf } := by
    simp [reserve, new, capacity, BRange.zero, Nat.min_eq_right hn]
  rw [h1]
  have h2 : write
      ({ a := BRange.zero, b := BRange.zero, reserve := ⟨0, vs.length⟩,
         buffer := buf } : StaticBip α) vs =
      { a := BRange.zero, b := BRange.zero, reserve := ⟨0, vs.length⟩,
        buffer := vs ++ buf.drop vs.length } := by
    simp [write]
  rw [h2]
  by_cases hz : vs.length = 0
  · rw [List.length_eq_zero.mp hz]
    simp [commit, read, BRange.zero]
  · have h3 : commit
        ({ a := BRange.zero, b := BRange.zero, reserve := ⟨0, vs.length⟩,
           buffer := vs ++ buf.drop vs.length } : StaticBip α) vs.length =
        { a := ⟨0, vs.length⟩, b := BRange.zero, reserve := BRange.zero,
          buffer := vs ++ buf.drop vs.length } := by
      simp [commit, BRange.zero, BRange.is_empty, hz]
    rw [h3]
    simp [read, List.take_left]

/-- C2, witness: four slots, values `[1, 2, 3]`. -/
theorem C2_round_trip_witness :
    read (commit (write (reserve (new ([0, 0, 0, 0] : List Nat)) 3)
      [1, 2, 3]) 3) = [1, 2, 3] :=
  C2_round_trip [0, 0, 0, 0] [1, 2, 3] 3 (by decide) (by decide)

/-- C3: `reserve` places the window exactly by the spec's strict order
(B-tail, then after A, then index 0), the window never exceeds `count`
slots, and the result is independent of whatever reservation was
previously outstanding. -/
theorem C3_reserve_follows_spec (s : StaticBip α) (count : Nat) (r : BRange) :
    reserve s count = reserveSpec s count ∧
      reserved (reserve s count) ≤ count ∧
      reserve { s with reserve := r } count = reserve s count := by
  refine ⟨?_, ?_, ?_⟩
  · simp only [reserve, reserveSpec, capacity, gt_iff_lt, ge_iff_le]
    split_ifs <;> simp [Nat.min_comm]
  · simp only [reserve, reserved]
    split_ifs <;> simp
  · rfl

/-- C4: `commit` behaves exactly as the spec describes it: `commit 0` only
clears the reservation; otherwise with `n = min(len, len(Reserve))` it
creates A when A and B are both empty, extends A when the reservation
started at `A.end`, and grows B otherwise, clearing Reserve in every
case. -/
theorem C4_commit_follows_spec (s : StaticBip α) (len : Nat) :
    commit s len = commitSpec s len := by
  by_cases hl : len = 0
  · simp [commit, commitSpec, hl]
  · simp only [commit, commitSpec, reserved, BRange.len, BRange.is_empty, hl,
      Bool.and_eq_true, Bool.not_eq_true', decide_eq_false_iff_not, Nat.not_lt,
      if_false, ne_eq, not_false_eq_true, if_true]
    split_ifs <;> first | rfl | omega

/-- C5: `decommit len` rotates B into A's place (and clears B) exactly
when `len ≥ len(A)`, ignoring any excess, and otherwise only advances
`A.start` by `len`. -/
theorem C5_decommit_follows_spec (s : StaticBip α) (len : Nat) :
    decommit s len = decommitSpec s len := rfl

/-- C6: `pop` takes the slot at `A.start` when A is non-empty, else the
slot at `B.start` when B is non-empty, else yields nothing — and (on
well-formed ranges) it yields nothing exactly when `committed` is 0; the
spec-side function also shows it never rotates B into A. -/
theorem C6_pop_follows_spec (s : StaticBip α) (ha : s.a.start ≤ s.a.stop)
    (hb : s.b.start ≤ s.b.stop) :
    pop s = popSpec s ∧ ((pop s).1 = none ↔ committed s = 0) := by
  constructor
  · simp only [pop, popSpec, BRange.len]
    split_ifs <;> first | rfl | omega
  · simp only [pop, committed]
    split_ifs with h1 h2 <;> simp <;> omega

/-- C6, witness: a fresh one-slot tracker. -/
theorem C6_pop_follows_spec_witness :
    pop (new ([0] : List Nat)) = popSpec (new [0]) ∧
      ((pop (new ([0] : List Nat))).1 = none ↔
        committed (new ([0] : List Nat)) = 0) :=
  C6_pop_follows_spec (new [0]) (by decide) (by decide)

end Bip
